import Mathlib

/-!
Shallow embedding of the diabetic-retinopathy web application
(WebApllication/src/App.tsx together with its constants, types and
HistoryPanel modules) and proofs about its analysis lifecycle, classifier
response parsing, file intake validation and history cache.

Conventions of the embedding:
- JavaScript numbers that only ever hold integers are modelled as Int or Nat.
- Asynchronous outcomes (the FileReader read, the classifier reply, the
  timeout race) are passed in as explicit oracle parameters.
- React state is an explicit AppState record; each handler is a function
  from oracles and the current state to the next state together with a
  Trace of its observable effects (object URLs revoked, network requests
  issued).
- The value of the React state variable `image` that the onDrop callback
  reads inside its catch block is the value captured by the useCallback
  closure when the callback was created, which is the pre-drop value, never
  the object URL assigned during the running attempt.  It is passed
  explicitly as the closureImage parameter.
-/

deriving instance DecidableEq for Except

namespace DRApp

/-- DR_LEVELS lookup table from constants.ts.  JavaScript object indexing
with a key outside 0..4 yields undefined, modelled as none. -/
def DR_LEVELS : Int → Option String := fun l =>
  if l = 0 then some "No DR"
  else if l = 1 then some "Mild DR"
  else if l = 2 then some "Moderate DR"
  else if l = 3 then some "Severe DR"
  else if l = 4 then some "Proliferative DR"
  else none

/-- DR_DESCRIPTIONS lookup table from constants.ts.  JavaScript object
indexing with a key outside 0..4 yields undefined, modelled as none. -/
def DR_DESCRIPTIONS : Int → Option String := fun l =>
  if l = 0 then some "No visible signs of diabetic retinopathy. Regular screening should continue as recommended by your healthcare provider."
  else if l = 1 then some "Mild non-proliferative diabetic retinopathy (NPDR) with microaneurysms. Monitor closely and maintain good blood sugar control."
  else if l = 2 then some "Moderate NPDR with multiple microaneurysms, dot and blot hemorrhages, and hard exudates. More frequent monitoring required."
  else if l = 3 then some "Severe NPDR with extensive hemorrhages, venous beading, and intraretinal microvascular abnormalities (IRMA). Immediate medical attention needed."
  else if l = 4 then some "Proliferative diabetic retinopathy (PDR) with neovascularization and potential vitreous hemorrhage. Urgent treatment required."
  else none

/-- AnalysisResult record from types.ts.  The description field is Option
String because it is produced by a JavaScript object lookup that can in
principle yield undefined; the lifecycle only ever stores a defined table
entry, which is part of what is proved below. -/
structure AnalysisResult where
  id : String
  timestamp : Int
  imageUrl : String
  level : Int
  description : Option String
deriving Repr, DecidableEq

/-- The distinct failure kinds thrown by onDrop, processImage and
analyzeImage in App.tsx, identified by the exact message each `throw new
Error(...)` site carries. -/
inductive AnalysisError where
  | apiKeyMissing
  | invalidImageFormat
  | unsupportedImageFormat
  | timeout
  | noValidResponse
  | invalidResponse
  | readFail
  | validationType
  | validationSize
deriving Repr, DecidableEq

/-- The exact message string of each throw site in App.tsx.  The remapping
catch block in analyzeImage (lines 105-126) rethrows any of these messages
unchanged, because none of them contains the substrings UNAUTHENTICATED,
PERMISSION_DENIED, RESOURCE_EXHAUSTED, size, too large, timeout or network
that it tests for. -/
def AnalysisError.message : AnalysisError → String
  | .apiKeyMissing => "Gemini API key is not configured"
  | .invalidImageFormat => "Invalid image format"
  | .unsupportedImageFormat => "Unsupported image format. Please use JPEG or PNG."
  | .timeout => "Analysis timed out. Please try again."
  | .noValidResponse => "Failed to get a valid response from the AI model"
  | .invalidResponse => "Invalid model response. Please try again."
  | .readFail => "Failed to read the image file."
  | .validationType => "Please upload a valid JPEG or PNG image."
  | .validationSize => "Image size must be less than 4MB."

/-- Value of a character as a digit in the given radix (10 or 16), as in
the ECMAScript parseInt digit alphabet. -/
def digitVal (radix : Nat) (c : Char) : Option Nat :=
  if c.isDigit then
    if c.toNat - 48 < radix then some (c.toNat - 48) else none
  else if radix = 16 ∧ 'a' ≤ c ∧ c ≤ 'f' then some (c.toNat - 87)
  else if radix = 16 ∧ 'A' ≤ c ∧ c ≤ 'F' then some (c.toNat - 55)
  else none

/-- Longest leading run of radix digits of a character list. -/
def leadingDigits (radix : Nat) : List Char → List Nat
  | [] => []
  | c :: rest =>
    match digitVal radix c with
    | some v => v :: leadingDigits radix rest
    | none => []

/-- Value of a digit list read most-significant first. -/
def digitsToNat (radix : Nat) (ds : List Nat) : Nat :=
  ds.foldl (fun acc d => acc * radix + d) 0

/-- Helper for jsParseInt: parse the part after the optional sign.  An
0x or 0X prefix switches to radix 16, as ECMAScript parseInt does when the
radix argument is omitted; otherwise the longest leading run of decimal
digits is taken and anything after it is ignored.  An empty digit run is
NaN, modelled as none. -/
def jsParseIntFrom (cs : List Char) (sign : Int) : Option Int :=
  if cs.head? = some '0' ∧ (cs.tail.head? = some 'x' ∨ cs.tail.head? = some 'X') then
    let ds := leadingDigits 16 cs.tail.tail
    if ds = [] then none else some (sign * (digitsToNat 16 ds : Int))
  else
    let ds := leadingDigits 10 cs
    if ds = [] then none else some (sign * (digitsToNat 10 ds : Int))

/-- Model of JavaScript parseInt(string) with the radix argument omitted,
as invoked at App.tsx line 95: skip leading whitespace, consume an optional
sign, then parse per jsParseIntFrom. -/
def jsParseInt (s : String) : Option Int :=
  let cs := s.toList.dropWhile Char.isWhitespace
  if cs.head? = some '-' then jsParseIntFrom cs.tail (-1)
  else if cs.head? = some '+' then jsParseIntFrom cs.tail 1
  else jsParseIntFrom cs 1

/-- Remove the longest suffix of characters satisfying p. -/
def trimTrailing (p : Char → Bool) (l : List Char) : List Char :=
  (l.reverse.dropWhile p).reverse

/-- Model of JavaScript String.prototype.trim as invoked at App.tsx line
94: remove whitespace from both ends. -/
def jsTrim (s : String) : String :=
  String.mk (trimTrailing Char.isWhitespace (s.toList.dropWhile Char.isWhitespace))

/-- Lines 94-99 of App.tsx: trim the classifier reply text, parse it with
parseInt, and fail unless the value is an integer within 0..4. -/
def parseLevelText (raw : String) : Except AnalysisError Int :=
  match jsParseInt (jsTrim raw) with
  | none => .error .invalidResponse
  | some level =>
    if level < 0 ∨ 4 < level then .error .invalidResponse else .ok level

/-- Character class [A-Za-z-+/] of the data-URL regex at App.tsx line 63. -/
def dataUrlMimeChar (c : Char) : Bool :=
  c.isAlpha || c = '-' || c = '+' || c = '/'

/-- ECMAScript line terminators, which the dot of a regex does not match. -/
def lineTerminator (c : Char) : Bool :=
  c = '\n' || c = '\r' || c.toNat = 0x2028 || c.toNat = 0x2029

/-- Model of matching imageData against the anchored regex
data:([A-Za-z-+/]+);base64,(.+)$ at App.tsx line 63.  The character class
excludes the semicolon, so the greedy group is exactly the leading run of
class characters and the match is unambiguous; the final group must be a
nonempty run of non-line-terminator characters reaching the end. -/
def dataUrlMatch (s : String) : Option (String × String) :=
  let cs := s.toList
  if cs.take 5 = "data:".toList then
    let rest := cs.drop 5
    let mime := rest.takeWhile dataUrlMimeChar
    let after := rest.dropWhile dataUrlMimeChar
    if mime ≠ [] ∧ after.take 8 = ";base64,".toList then
      let payload := after.drop 8
      if payload ≠ [] ∧ payload.all (fun c => !lineTerminator c) then
        some (String.mk mime, String.mk payload)
      else none
    else none
  else none

/-- Outcome of awaiting result.response / response.text() of the winning
network promise: either the result object or its response field was falsy,
or a text body was produced. -/
inductive ClassifierReply where
  | missing
  | text (body : String)
deriving Repr, DecidableEq

/-- The timeout constant of App.tsx line 81. -/
def timeoutMs : Nat := 30000

/-- Lines 57-130 of App.tsx (analyzeImage): check the API key, match and
validate the data URL, race the request against the timeout, then parse the
reply text.  timeoutWins says which side of the Promise.race settled first;
the paired Nat counts the network requests issued (model.generateContent is
called exactly when all checks before the race pass, whether or not the
timeout later wins the race). -/
def analyzeImage (apiKey : Bool) (imageData : String) (timeoutWins : Bool)
    (reply : ClassifierReply) : Except AnalysisError Int × Nat :=
  if !apiKey then (.error .apiKeyMissing, 0)
  else
    match dataUrlMatch imageData with
    | none => (.error .invalidImageFormat, 0)
    | some (mimeType, _payload) =>
      if mimeType ≠ "image/jpeg" ∧ mimeType ≠ "image/png" then
        (.error .unsupportedImageFormat, 0)
      else if timeoutWins then (.error .timeout, 1)
      else
        match reply with
        | .missing => (.error .noValidResponse, 1)
        | .text body => (parseLevelText body, 1)

/-- Lines 132-165 of App.tsx (processImage): read the file as a data URL
(readResult is none when the FileReader fails or yields a non-string,
some imageData on success), analyze it, and construct the AnalysisResult
with a fresh id, the current timestamp and the table description for the
returned level. -/
def processImage (apiKey : Bool) (readResult : Option String) (timeoutWins : Bool)
    (reply : ClassifierReply) (freshId : String) (now : Int) :
    Except AnalysisError AnalysisResult × Nat :=
  match readResult with
  | none => (.error .readFail, 0)
  | some imageData =>
    match analyzeImage apiKey imageData timeoutWins reply with
    | (.ok level, n) =>
      (.ok { id := freshId, timestamp := now, imageUrl := imageData,
             level := level, description := DR_DESCRIPTIONS level }, n)
    | (.error e, n) => (.error e, n)

/-- The type and size fields of the dropped File object. -/
structure JSFile where
  type : String
  size : Nat
deriving Repr, DecidableEq

/-- The maxSize constant of App.tsx line 176. -/
def maxSize : Nat := 4 * 1024 * 1024

/-- Lines 171-179 of App.tsx: reject unless the MIME type is exactly
image/jpeg or image/png, then reject if the size exceeds 4 MiB. -/
def validateFile (f : JSFile) : Except AnalysisError Unit :=
  if f.type ≠ "image/jpeg" ∧ f.type ≠ "image/png" then .error .validationType
  else if maxSize < f.size then .error .validationSize
  else .ok ()

/-- The React state of the App component that the lifecycle touches. -/
structure AppState where
  image : Option String
  loading : Bool
  prediction : Option AnalysisResult
  error : Option String
  history : List AnalysisResult
  showHistory : Bool
deriving Repr, DecidableEq

/-- Initial state of the App component (history defaults to [] when local
storage is empty). -/
def initialState : AppState :=
  { image := none, loading := false, prediction := none, error := none,
    history := [], showHistory := false }

/-- Observable effects of a handler run: object URLs revoked and network
requests issued. -/
structure Trace where
  revoked : List String
  requests : Nat
deriving Repr, DecidableEq

/-- The catch and finally blocks of onDrop (App.tsx lines 192-200): set
the error message; if the closure-captured image value is non-null, revoke
it and clear the image; finally clear the loading flag.  closureImage is
the pre-drop value of the image state captured by the useCallback closure,
not the object URL assigned during this attempt. -/
def onDropCatch (e : AnalysisError) (closureImage : Option String) (s : AppState) :
    AppState × List String :=
  match closureImage with
  | some url => ({ s with error := some e.message, image := none, loading := false }, [url])
  | none => ({ s with error := some e.message, loading := false }, [])

/-- Synchronous prefix of onDrop (App.tsx lines 167-186): take the first
file, validate it, and on success enter the loading state, clear the error
and prediction, and show the fresh object URL as preview.  The Bool says
whether the asynchronous processImage continuation was launched. -/
def onDropStart (fileOpt : Option JSFile) (objectUrl : String)
    (closureImage : Option String) (s : AppState) : AppState × Trace × Bool :=
  match fileOpt with
  | none => (s, { revoked := [], requests := 0 }, false)
  | some f =>
    match validateFile f with
    | .error e =>
      let r := onDropCatch e closureImage s
      (r.1, { revoked := r.2, requests := 0 }, false)
    | .ok _ =>
      ({ s with loading := true, error := none, prediction := none,
                image := some objectUrl },
       { revoked := [], requests := 0 }, true)

/-- Lines 188-190 of App.tsx: prepend the new result and truncate to 10. -/
def addToHistory (r : AnalysisResult) (h : List AnalysisResult) : List AnalysisResult :=
  (r :: h).take 10

/-- Continuation of onDrop after processImage settles (App.tsx lines
188-200): on success store the prediction and push it into the history; on
failure run the catch block; either way the finally block clears loading. -/
def onDropFinish (outcome : Except AnalysisError AnalysisResult)
    (closureImage : Option String) (s : AppState) : AppState × List String :=
  match outcome with
  | .ok r =>
    ({ s with prediction := some r, history := addToHistory r s.history,
              loading := false }, [])
  | .error e => onDropCatch e closureImage s

/-- A full uninterrupted run of onDrop: the synchronous prefix followed,
when launched, by the continuation on the processImage outcome. -/
def onDrop (fileOpt : Option JSFile) (objectUrl : String) (closureImage : Option String)
    (apiKey : Bool) (readResult : Option String) (timeoutWins : Bool)
    (reply : ClassifierReply) (freshId : String) (now : Int) (s : AppState) :
    AppState × Trace :=
  let st := onDropStart fileOpt objectUrl closureImage s
  if st.2.2 then
    let pr := processImage apiKey readResult timeoutWins reply freshId now
    let fin := onDropFinish pr.1 closureImage st.1
    (fin.1, { revoked := st.2.1.revoked ++ fin.2, requests := pr.2 })
  else
    (st.1, st.2.1)

/-- Lines 274-276 of App.tsx: remove the entries whose id matches. -/
def deleteFromHistory (targetId : String) (h : List AnalysisResult) : List AnalysisResult :=
  h.filter (fun item => item.id != targetId)

/-- Lines 278-283 of App.tsx: load a stored result directly, clearing any
error and closing the history panel; no read, no network request. -/
def selectFromHistory (r : AnalysisResult) (s : AppState) : AppState × Trace :=
  ({ s with image := some r.imageUrl, prediction := some r, error := none,
            showHistory := false },
   { revoked := [], requests := 0 })

/-- The condition of claim C3 on a classifier reply text, computed from the
model itself: the trimmed text does not parse as an integer, or parses to an
integer outside 0..4. -/
def invalidReplyText (t : String) : Bool :=
  match jsParseInt (jsTrim t) with
  | none => true
  | some v => decide (v < 0) || decide (4 < v)

/-- A sample well-formed PNG data URL used by concrete instantiations. -/
def sampleDataUrl : String := "data:image/png;base64,AAAA"

/-- A sample valid PNG file used by concrete instantiations. -/
def samplePng : JSFile := { type := "image/png", size := 1000 }

/-- A family of distinct sample results used by concrete instantiations. -/
def sampleResult (k : Nat) : AnalysisResult :=
  { id := toString k, timestamp := 0, imageUrl := sampleDataUrl, level := 0,
    description := DR_DESCRIPTIONS 0 }

/-- A sample history of length exactly 10. -/
def sampleHistory : List AnalysisResult :=
  (List.range 10).map sampleResult

/-- A concrete successful analysis outcome used by concrete
instantiations. -/
def resultSample2 : AnalysisResult :=
  { id := "idA", timestamp := 1, imageUrl := sampleDataUrl, level := 2,
    description := DR_DESCRIPTIONS 2 }

theorem parseLevelText_ok_range (raw : String) (level : Int)
    (h : parseLevelText raw = .ok level) : 0 ≤ level ∧ level ≤ 4 := by
  unfold parseLevelText at h
  cases hj : jsParseInt (jsTrim raw) with
  | none => simp [hj] at h
  | some v =>
    rw [hj] at h
    by_cases hv : v < 0 ∨ 4 < v
    · simp [hv] at h
    · simp [hv] at h
      omega

theorem analyzeImage_ok_parse (apiKey : Bool) (imageData : String)
    (timeoutWins : Bool) (body : String) (level : Int) (n : Nat)
    (h : analyzeImage apiKey imageData timeoutWins (.text body) = (.ok level, n)) :
    parseLevelText body = .ok level := by
  unfold analyzeImage at h
  split at h
  · cases h
  · split at h
    · cases h
    · split at h
      · cases h
      · split at h
        · cases h
        · exact congrArg Prod.fst h

theorem analyzeImage_ok_range (apiKey : Bool) (imageData : String)
    (timeoutWins : Bool) (reply : ClassifierReply) (level : Int) (n : Nat)
    (h : analyzeImage apiKey imageData timeoutWins reply = (.ok level, n)) :
    0 ≤ level ∧ level ≤ 4 := by
  cases reply with
  | missing =>
    unfold analyzeImage at h
    split at h
    · cases h
    · split at h
      · cases h
      · split at h
        · cases h
        · split at h
          · cases h
          · cases h
  | text body =>
    exact parseLevelText_ok_range body level (analyzeImage_ok_parse _ _ _ _ _ _ h)

theorem DR_DESCRIPTIONS_isSome (l : Int) (h0 : 0 ≤ l) (h4 : l ≤ 4) :
    (DR_DESCRIPTIONS l).isSome = true := by
  have h : l = 0 ∨ l = 1 ∨ l = 2 ∨ l = 3 ∨ l = 4 := by omega
  rcases h with h | h | h | h | h <;> subst h <;> decide

/-- C1: every AnalysisResult constructed by the lifecycle has a severity
level in 0..4 and its description field is exactly the DR_DESCRIPTIONS
table entry for that level, which is always a defined entry. -/
theorem C1_result_level_description (apiKey : Bool) (readResult : Option String)
    (timeoutWins : Bool) (reply : ClassifierReply) (freshId : String) (now : Int)
    (r : AnalysisResult) (n : Nat)
    (h : processImage apiKey readResult timeoutWins reply freshId now = (.ok r, n)) :
    (0 ≤ r.level ∧ r.level ≤ 4) ∧ r.description = DR_DESCRIPTIONS r.level
      ∧ (DR_DESCRIPTIONS r.level).isSome = true := by
  cases readResult with
  | none => simp [processImage] at h
  | some imageData =>
    rcases hA : analyzeImage apiKey imageData timeoutWins reply with ⟨exc, m⟩
    cases exc with
    | error e => simp [processImage, hA] at h
    | ok level =>
      simp only [processImage, hA] at h
      have h2 := congrArg Prod.fst h
      injection h2 with h3
      subst h3
      have hr := analyzeImage_ok_range apiKey imageData timeoutWins reply level m hA
      exact ⟨hr, rfl, DR_DESCRIPTIONS_isSome level hr.1 hr.2⟩

/-- Witness for C1 at a concrete successful run of processImage on the
reply text 2. -/
theorem C1_result_level_description_witness :
    (0 ≤ resultSample2.level ∧ resultSample2.level ≤ 4)
      ∧ resultSample2.description = DR_DESCRIPTIONS resultSample2.level
      ∧ (DR_DESCRIPTIONS resultSample2.level).isSome = true :=
  C1_result_level_description true (some sampleDataUrl) false (.text "2") "idA" 1
    resultSample2 1 (by decide)

/-- C2: adding keeps the history at length at most 10 and prepends the new
result; when the history already holds exactly 10 entries the add evicts
exactly the oldest (last) entry; deleting never grows the history beyond
10. -/
theorem C2_history_bounded (r : AnalysisResult) (h : List AnalysisResult)
    (targetId : String) :
    (addToHistory r h).length ≤ 10
    ∧ (h.length < 10 → addToHistory r h = r :: h)
    ∧ (h.length = 10 → addToHistory r h = r :: h.dropLast)
    ∧ (h.length ≤ 10 → (deleteFromHistory targetId h).length ≤ 10) := by
  refine ⟨?_, ?_, ?_, ?_⟩
  · unfold addToHistory
    exact List.length_take_le 10 (r :: h)
  · intro hl
    unfold addToHistory
    apply List.take_of_length_le
    simp only [List.length_cons]
    omega
  · intro hl
    unfold addToHistory
    have h10 : (10 : Nat) = 9 + 1 := rfl
    rw [h10, List.take_succ_cons, List.dropLast_eq_take, hl]
  · intro hl
    exact le_trans (List.length_filter_le _ _) hl

/-- Witness for C2: the bound, the eviction shape on a history of length
exactly 10, prepending on a short history, and the delete bound, all at
concrete inputs. -/
theorem C2_history_bounded_witness :
    (addToHistory (sampleResult 99) sampleHistory).length ≤ 10
    ∧ addToHistory (sampleResult 99) sampleHistory
        = sampleResult 99 :: sampleHistory.dropLast
    ∧ addToHistory (sampleResult 99) [] = [sampleResult 99]
    ∧ (deleteFromHistory "3" sampleHistory).length ≤ 10 := by
  refine ⟨(C2_history_bounded (sampleResult 99) sampleHistory "3").1,
    (C2_history_bounded (sampleResult 99) sampleHistory "3").2.2.1 (by decide),
    (C2_history_bounded (sampleResult 99) [] "3").2.1 (by decide),
    (C2_history_bounded (sampleResult 99) sampleHistory "3").2.2.2 (by decide)⟩

/-- C8: selecting a stored history entry issues no network request,
loads exactly the stored result as the prediction, clears any error, shows
the stored image, and leaves the history untouched. -/
theorem C8_select_no_network (r : AnalysisResult) (s : AppState) :
    ((selectFromHistory r s).2).requests = 0
    ∧ ((selectFromHistory r s).1).prediction = some r
    ∧ ((selectFromHistory r s).1).error = none
    ∧ ((selectFromHistory r s).1).image = some r.imageUrl
    ∧ ((selectFromHistory r s).1).history = s.history :=
  ⟨rfl, rfl, rfl, rfl, rfl⟩

theorem onDropCatch_history (e : AnalysisError) (closureImage : Option String)
    (s : AppState) : ((onDropCatch e closureImage s).1).history = s.history := by
  unfold onDropCatch
  cases closureImage <;> rfl

theorem onDropStart_history (fileOpt : Option JSFile) (objectUrl : String)
    (closureImage : Option String) (s : AppState) :
    ((onDropStart fileOpt objectUrl closureImage s).1).history = s.history := by
  unfold onDropStart
  cases fileOpt with
  | none => rfl
  | some f =>
    cases hv : validateFile f with
    | error e =>
      simp only [hv]
      exact onDropCatch_history e closureImage s
    | ok u => simp only [hv]

theorem onDrop_history_of_no_ok (fileOpt : Option JSFile) (objectUrl : String)
    (closureImage : Option String) (apiKey : Bool) (readResult : Option String)
    (timeoutWins : Bool) (reply : ClassifierReply) (freshId : String) (now : Int)
    (s : AppState)
    (hne : ∀ r n, processImage apiKey readResult timeoutWins reply freshId now ≠ (.ok r, n)) :
    ((onDrop fileOpt objectUrl closureImage apiKey readResult timeoutWins reply
        freshId now s).1).history = s.history := by
  unfold onDrop
  rcases hp : processImage apiKey readResult timeoutWins reply freshId now with ⟨exc, n⟩
  cases exc with
  | ok r => exact absurd hp (hne r n)
  | error e =>
    by_cases hst : (onDropStart fileOpt objectUrl closureImage s).2.2 = true
    · simp only [hp, hst, if_true]
      unfold onDropFinish
      rw [onDropCatch_history, onDropStart_history]
    · simp only [hp, Bool.not_eq_true] at hst
      simp only [hst, Bool.false_eq_true, if_false]
      exact onDropStart_history _ _ _ _

theorem processImage_text_no_ok (apiKey : Bool) (readResult : Option String)
    (timeoutWins : Bool) (body : String) (freshId : String) (now : Int)
    (hb : parseLevelText body = .error .invalidResponse) :
    ∀ r n, processImage apiKey readResult timeoutWins (.text body) freshId now ≠ (.ok r, n) := by
  intro r n h
  cases readResult with
  | none => simp [processImage] at h
  | some imageData =>
    rcases hA : analyzeImage apiKey imageData timeoutWins (.text body) with ⟨exc, m⟩
    cases exc with
    | error e => simp [processImage, hA] at h
    | ok level =>
      have hpp := analyzeImage_ok_parse apiKey imageData timeoutWins body level m hA
      rw [hb] at hpp
      cases hpp

theorem analyzeImage_timeout_no_ok (apiKey : Bool) (imageData : String)
    (reply : ClassifierReply) :
    ∀ level n, analyzeImage apiKey imageData true reply ≠ (.ok level, n) := by
  intro level n h
  unfold analyzeImage at h
  split at h
  · cases h
  · split at h
    · cases h
    · split at h
      · cases h
      · simp at h

theorem processImage_timeout_no_ok (apiKey : Bool) (readResult : Option String)
    (reply : ClassifierReply) (freshId : String) (now : Int) :
    ∀ r n, processImage apiKey readResult true reply freshId now ≠ (.ok r, n) := by
  intro r n h
  cases readResult with
  | none => simp [processImage] at h
  | some imageData =>
    rcases hA : analyzeImage apiKey imageData true reply with ⟨exc, m⟩
    cases exc with
    | error e => simp [processImage, hA] at h
    | ok level => exact absurd hA (analyzeImage_timeout_no_ok apiKey imageData reply level m)

theorem analyzeImage_timeout_reply_irrel (apiKey : Bool) (imageData : String)
    (reply reply2 : ClassifierReply) :
    analyzeImage apiKey imageData true reply = analyzeImage apiKey imageData true reply2 := by
  unfold analyzeImage
  cases apiKey with
  | false => rfl
  | true =>
    rcases hm : dataUrlMatch imageData with _ | ⟨mime, payload⟩
    · rfl
    · by_cases hmt : mime ≠ "image/jpeg" ∧ mime ≠ "image/png" <;> simp [hmt]

theorem processImage_timeout_reply_irrel (apiKey : Bool) (readResult : Option String)
    (reply reply2 : ClassifierReply) (freshId : String) (now : Int) :
    processImage apiKey readResult true reply freshId now
      = processImage apiKey readResult true reply2 freshId now := by
  cases readResult with
  | none => rfl
  | some imageData =>
    simp only [processImage]
    rw [analyzeImage_timeout_reply_irrel apiKey imageData reply reply2]

/-- C3: a classifier reply whose trimmed text does not parse as an integer
or parses outside 0..4 makes the parse fail with the invalid-response
error, and no run of onDrop carrying that reply changes the history. -/
theorem C3_invalid_reply (t : String) (hbad : invalidReplyText t = true) :
    parseLevelText t = .error .invalidResponse
    ∧ ∀ (fileOpt : Option JSFile) (objectUrl : String) (closureImage : Option String)
        (apiKey : Bool) (readResult : Option String) (timeoutWins : Bool)
        (freshId : String) (now : Int) (s : AppState),
        ((onDrop fileOpt objectUrl closureImage apiKey readResult timeoutWins
            (.text t) freshId now s).1).history = s.history := by
  have hp : parseLevelText t = .error .invalidResponse := by
    unfold parseLevelText
    unfold invalidReplyText at hbad
    cases hj : jsParseInt (jsTrim t) with
    | none => simp [hj]
    | some v =>
      rw [hj] at hbad
      simp only [decide_eq_true_eq, Bool.or_eq_true] at hbad
      simp [hj, hbad]
  refine ⟨hp, ?_⟩
  intro fileOpt objectUrl closureImage apiKey readResult timeoutWins freshId now s
  exact onDrop_history_of_no_ok fileOpt objectUrl closureImage apiKey readResult
    timeoutWins (.text t) freshId now s
    (processImage_text_no_ok apiKey readResult timeoutWins t freshId now hp)

/-- Witness for C3 at the reply text 7 of the spec example. -/
theorem C3_invalid_reply_witness :
    invalidReplyText "7" = true ∧ parseLevelText "7" = .error .invalidResponse
    ∧ ((onDrop (some samplePng) "blob:u" none true (some sampleDataUrl) false
        (.text "7") "id1" 0 initialState).1).history = initialState.history :=
  ⟨by decide, (C3_invalid_reply "7" (by decide)).1,
   (C3_invalid_reply "7" (by decide)).2 (some samplePng) "blob:u" none true
     (some sampleDataUrl) false "id1" 0 initialState⟩

/-- C4: the race timer is 30000 ms; when the timer settles first the
classifier call fails with the timeout error even though the request was
issued; the final state of such a run is independent of the reply the
network eventually delivers, and its history is unchanged. -/
theorem C4_timeout_race (imageData : String) (mime payload : String)
    (hm : dataUrlMatch imageData = some (mime, payload))
    (hmime : mime = "image/jpeg" ∨ mime = "image/png") :
    timeoutMs = 30000
    ∧ (∀ reply, analyzeImage true imageData true reply = (.error .timeout, 1))
    ∧ (∀ (fileOpt : Option JSFile) (objectUrl : String) (closureImage : Option String)
        (apiKey : Bool) (readResult : Option String) (reply reply2 : ClassifierReply)
        (freshId : String) (now : Int) (s : AppState),
        onDrop fileOpt objectUrl closureImage apiKey readResult true reply freshId now s
          = onDrop fileOpt objectUrl closureImage apiKey readResult true reply2 freshId now s)
    ∧ (∀ (fileOpt : Option JSFile) (objectUrl : String) (closureImage : Option String)
        (apiKey : Bool) (readResult : Option String) (reply : ClassifierReply)
        (freshId : String) (now : Int) (s : AppState),
        ((onDrop fileOpt objectUrl closureImage apiKey readResult true reply
            freshId now s).1).history = s.history) := by
  refine ⟨rfl, ?_, ?_, ?_⟩
  · intro reply
    unfold analyzeImage
    rw [hm]
    have hmt : ¬(mime ≠ "image/jpeg" ∧ mime ≠ "image/png") := by
      rcases hmime with hh | hh <;> simp [hh]
    simp [hmt]
  · intro fileOpt objectUrl closureImage apiKey readResult reply reply2 freshId now s
    unfold onDrop
    rw [processImage_timeout_reply_irrel apiKey readResult reply reply2 freshId now]
  · intro fileOpt objectUrl closureImage apiKey readResult reply freshId now s
    exact onDrop_history_of_no_ok fileOpt objectUrl closureImage apiKey readResult
      true reply freshId now s
      (processImage_timeout_no_ok apiKey readResult reply freshId now)

/-- Witness for C4 at a concrete PNG data URL and a reply that arrives too
late. -/
theorem C4_timeout_race_witness :
    timeoutMs = 30000
    ∧ analyzeImage true sampleDataUrl true (.text "2") = (.error .timeout, 1)
    ∧ ((onDrop (some samplePng) "blob:u" none true (some sampleDataUrl) true
        (.text "2") "id1" 0 initialState).1).history = initialState.history :=
  ⟨(C4_timeout_race sampleDataUrl "image/png" "AAAA" (by decide) (Or.inr rfl)).1,
   (C4_timeout_race sampleDataUrl "image/png" "AAAA" (by decide) (Or.inr rfl)).2.1 (.text "2"),
   (C4_timeout_race sampleDataUrl "image/png" "AAAA" (by decide) (Or.inr rfl)).2.2.2
     (some samplePng) "blob:u" none true (some sampleDataUrl) (.text "2") "id1" 0 initialState⟩

/-- C6: intake accepts a file exactly when its MIME type is image/jpeg or
image/png and its size is at most 4 MiB; a gif is rejected with the type
validation error; the 4 MiB boundary is accepted and one byte more is
rejected; and a rejected file causes no network request. -/
theorem C6_intake_validation (f : JSFile) :
    (validateFile f = .ok () ↔
      ((f.type = "image/jpeg" ∨ f.type = "image/png") ∧ f.size ≤ 4 * 1024 * 1024))
    ∧ (f.type = "image/gif" → validateFile f = .error .validationType)
    ∧ ((f.type = "image/jpeg" ∨ f.type = "image/png") → f.size = 4 * 1024 * 1024 →
        validateFile f = .ok ())
    ∧ ((f.type = "image/jpeg" ∨ f.type = "image/png") → f.size = 4 * 1024 * 1024 + 1 →
        validateFile f = .error .validationSize)
    ∧ (∀ e, validateFile f = .error e →
        ∀ (objectUrl : String) (closureImage : Option String) (apiKey : Bool)
          (readResult : Option String) (timeoutWins : Bool) (reply : ClassifierReply)
          (freshId : String) (now : Int) (s : AppState),
          ((onDrop (some f) objectUrl closureImage apiKey readResult timeoutWins
              reply freshId now s).2).requests = 0) := by
  refine ⟨⟨?_, ?_⟩, ?_, ?_, ?_, ?_⟩
  · intro hok
    unfold validateFile at hok
    by_cases ht : f.type ≠ "image/jpeg" ∧ f.type ≠ "image/png"
    · rw [if_pos ht] at hok; cases hok
    · rw [if_neg ht] at hok
      by_cases hs : maxSize < f.size
      · rw [if_pos hs] at hok; cases hok
      · refine ⟨?_, by unfold maxSize at hs; omega⟩
        by_cases hj : f.type = "image/jpeg"
        · exact Or.inl hj
        · by_cases hp2 : f.type = "image/png"
          · exact Or.inr hp2
          · exact absurd ⟨hj, hp2⟩ ht
  · rintro ⟨hd, hs⟩
    unfold validateFile
    have ht : ¬(f.type ≠ "image/jpeg" ∧ f.type ≠ "image/png") := by
      rcases hd with hh | hh <;> simp [hh]
    rw [if_neg ht, if_neg (by unfold maxSize; omega)]
  · intro hg
    unfold validateFile
    rw [if_pos ⟨by rw [hg]; decide, by rw [hg]; decide⟩]
  · intro hd hs
    have ht : ¬(f.type ≠ "image/jpeg" ∧ f.type ≠ "image/png") := by
      rcases hd with hh | hh <;> simp [hh]
    unfold validateFile
    rw [if_neg ht, if_neg (by unfold maxSize; omega)]
  · intro hd hs
    have ht : ¬(f.type ≠ "image/jpeg" ∧ f.type ≠ "image/png") := by
      rcases hd with hh | hh <;> simp [hh]
    unfold validateFile
    rw [if_neg ht, if_pos (by unfold maxSize; omega)]
  · intro e he objectUrl closureImage apiKey readResult timeoutWins reply freshId now s
    unfold onDrop onDropStart
    cases closureImage <;> simp [he, onDropCatch]

/-- Witness for C6 at a gif, at the exact 4 MiB boundary, one byte over
it, and at a rejected file issuing no request. -/
theorem C6_intake_validation_witness :
    validateFile { type := "image/gif", size := 100 } = .error .validationType
    ∧ validateFile { type := "image/png", size := 4 * 1024 * 1024 } = .ok ()
    ∧ validateFile { type := "image/png", size := 4 * 1024 * 1024 + 1 }
        = .error .validationSize
    ∧ ((onDrop (some { type := "image/gif", size := 100 }) "blob:u" none true
        (some sampleDataUrl) false (.text "2") "id1" 0 initialState).2).requests = 0 :=
  ⟨(C6_intake_validation { type := "image/gif", size := 100 }).2.1 rfl,
   (C6_intake_validation { type := "image/png", size := 4 * 1024 * 1024 }).2.2.1
     (Or.inr rfl) rfl,
   (C6_intake_validation { type := "image/png", size := 4 * 1024 * 1024 + 1 }).2.2.2.1
     (Or.inr rfl) rfl,
   (C6_intake_validation { type := "image/gif", size := 100 }).2.2.2.2 .validationType
     ((C6_intake_validation { type := "image/gif", size := 100 }).2.1 rfl)
     "blob:u" none true (some sampleDataUrl) false (.text "2") "id1" 0 initialState⟩

/-- C5 at the failing input: attempt A (object URL blob:a) is superseded by
attempt B (blob:b) while still in flight; when the superseded attempt A
then resolves successfully, its continuation still runs unconditionally and
updates the state: the prediction becomes the stale result of A and that
result is prepended to the history, even though B had already reset the
prediction to none.  onDrop has no request-generation guard that would
discard the stale resolution. -/
theorem C5_superseded_resolution_applied :
    ((onDropFinish ((processImage true (some sampleDataUrl) false (.text "2") "idA" 1).1)
        (some "blob:a")
        ((onDropStart (some samplePng) "blob:b" (some "blob:a")
            ((onDropStart (some samplePng) "blob:a" none initialState).1)).1)).1).prediction
      = some resultSample2
    ∧ ((onDropFinish ((processImage true (some sampleDataUrl) false (.text "2") "idA" 1).1)
        (some "blob:a")
        ((onDropStart (some samplePng) "blob:b" (some "blob:a")
            ((onDropStart (some samplePng) "blob:a" none initialState).1)).1)).1).history
      = [resultSample2]
    ∧ (((onDropStart (some samplePng) "blob:b" (some "blob:a")
          ((onDropStart (some samplePng) "blob:a" none initialState).1)).1).prediction
      = none) := by
  decide

/-- C7 at the failing input: the first upload attempt (so the
closure-captured image value is null) fails because the classifier reply
does not parse; the state does carry the derived error message, but the
preview stays set to the object URL created for the failed attempt and no
object URL is revoked, because the catch block tests and revokes the
closure-captured image value rather than the object URL of this attempt. -/
theorem C7_error_cleanup_missing :
    ((onDrop (some samplePng) "blob:u" none true (some sampleDataUrl) false
        (.text "abc") "id1" 5 initialState).1).error
      = some (AnalysisError.invalidResponse).message
    ∧ ((onDrop (some samplePng) "blob:u" none true (some sampleDataUrl) false
        (.text "abc") "id1" 5 initialState).1).image = some "blob:u"
    ∧ ((onDrop (some samplePng) "blob:u" none true (some sampleDataUrl) false
        (.text "abc") "id1" 5 initialState).2).revoked = []
    ∧ ((onDrop (some samplePng) "blob:u" none true (some sampleDataUrl) false
        (.text "abc") "id1" 5 initialState).1).loading = false := by
  decide

theorem deleteFromHistory_not_mem (targetId : String) (h : List AnalysisResult)
    (hno : ∀ x ∈ h, x.id ≠ targetId) : deleteFromHistory targetId h = h := by
  unfold deleteFromHistory
  rw [List.filter_eq_self]
  intro a ha
  simpa using hno a ha

theorem deleteFromHistory_length_aux (targetId : String) :
    ∀ (h : List AnalysisResult), (h.map (fun x => x.id)).Nodup →
      (∃ x ∈ h, x.id = targetId) →
      (deleteFromHistory targetId h).length + 1 = h.length := by
  intro h
  induction h with
  | nil => intro hnd hex; simp at hex
  | cons a t ih =>
    intro hnd hex
    simp only [List.map_cons, List.nodup_cons] at hnd
    by_cases ha : a.id = targetId
    · have hdrop : deleteFromHistory targetId (a :: t) = deleteFromHistory targetId t := by
        simp [deleteFromHistory, List.filter_cons, ha]
      have hnone : ∀ x ∈ t, x.id ≠ targetId := by
        intro x hx hxe
        exact hnd.1 (by rw [ha, ← hxe]; exact List.mem_map_of_mem _ hx)
      rw [hdrop, deleteFromHistory_not_mem targetId t hnone]
      simp
    · have hkeep : deleteFromHistory targetId (a :: t) = a :: deleteFromHistory targetId t := by
        simp [deleteFromHistory, List.filter_cons, ha]
      have hex2 : ∃ x ∈ t, x.id = targetId := by
        rcases hex with ⟨x, hx, hxe⟩
        cases hx with
        | head => exact absurd hxe ha
        | tail _ hx2 => exact ⟨x, hx2, hxe⟩
      rw [hkeep]
      have := ih hnd.2 hex2
      simp only [List.length_cons]
      omega

/-- C9: deleting an id not present in the history leaves it unchanged,
and with ids unique, deleting a present id removes exactly one entry and
yields a sublist of the original history, preserving the relative order of
the remaining entries. -/
theorem C9_delete_semantics (targetId : String) (h : List AnalysisResult) :
    ((∀ x ∈ h, x.id ≠ targetId) → deleteFromHistory targetId h = h)
    ∧ ((h.map (fun x => x.id)).Nodup → (∃ x ∈ h, x.id = targetId) →
        (deleteFromHistory targetId h).length + 1 = h.length
        ∧ (deleteFromHistory targetId h).Sublist h) :=
  ⟨deleteFromHistory_not_mem targetId h,
   fun hnd hex => ⟨deleteFromHistory_length_aux targetId h hnd hex,
     List.filter_sublist h⟩⟩

/-- Witness for C9 on a concrete two-entry history with distinct ids,
deleting an absent id and then a present one. -/
theorem C9_delete_semantics_witness :
    deleteFromHistory "zz" [sampleResult 0, sampleResult 1]
      = [sampleResult 0, sampleResult 1]
    ∧ (deleteFromHistory "0" [sampleResult 0, sampleResult 1]).length + 1
        = ([sampleResult 0, sampleResult 1] : List AnalysisResult).length
    ∧ (deleteFromHistory "0" [sampleResult 0, sampleResult 1]).Sublist
        [sampleResult 0, sampleResult 1] := by
  have hdel := (C9_delete_semantics "0" [sampleResult 0, sampleResult 1]).2
    (by decide) (by decide)
  exact ⟨(C9_delete_semantics "zz" [sampleResult 0, sampleResult 1]).1 (by decide),
    hdel.1, hdel.2⟩

theorem toList_mk (l : List Char) : (String.mk l).toList = l := rfl

theorem dropWhile_append_notlast (p : Char → Bool) (a : Char) (hpa : p a = false)
    (l : List Char) : (l ++ [a]).dropWhile p = l.dropWhile p ++ [a] := by
  induction l with
  | nil => simp [List.dropWhile_cons, hpa]
  | cons x xs ih =>
    by_cases hx : p x = true
    · simp [List.dropWhile_cons, hx, ih]
    · simp [List.dropWhile_cons, hx]

theorem trimTrailing_cons (p : Char → Bool) (a : Char) (l : List Char)
    (hpa : p a = false) : trimTrailing p (a :: l) = a :: trimTrailing p l := by
  unfold trimTrailing
  rw [List.reverse_cons, dropWhile_append_notlast p a hpa, List.reverse_append]
  rfl

theorem trimTrailing_eq_take (p : Char → Bool) :
    ∀ l : List Char, ∃ k, trimTrailing p l = l.take k := by
  intro l
  induction l with
  | nil => exact ⟨0, rfl⟩
  | cons a t ih =>
    obtain ⟨k, hk⟩ := ih
    by_cases hpa : p a = true
    · unfold trimTrailing
      rw [List.reverse_cons, List.dropWhile_append]
      by_cases he : (t.reverse.dropWhile p).isEmpty = true
      · rw [if_pos he]
        refine ⟨0, ?_⟩
        simp [List.dropWhile_cons, hpa]
      · rw [if_neg he, List.reverse_append]
        refine ⟨k + 1, ?_⟩
        unfold trimTrailing at hk
        simp [hk]
    · have hpa2 : p a = false := by simpa using hpa
      rw [trimTrailing_cons p a t hpa2]
      exact ⟨k + 1, by rw [hk, List.take_succ_cons]⟩

theorem trimTrailing_headq (p : Char → Bool) (l : List Char) (c : Char)
    (hh : (trimTrailing p l).head? = some c) : l.head? = some c := by
  obtain ⟨k, hk⟩ := trimTrailing_eq_take p l
  rw [hk] at hh
  cases l with
  | nil => simp at hh
  | cons a t =>
    cases k with
    | zero => simp at hh
    | succ k2 =>
      rw [List.take_succ_cons] at hh
      simpa using hh

theorem trimTrailing_mem (p : Char → Bool) (l : List Char) (x : Char)
    (hx : x ∈ trimTrailing p l) : x ∈ l := by
  obtain ⟨k, hk⟩ := trimTrailing_eq_take p l
  rw [hk] at hx
  exact List.take_subset k l hx

theorem leadingDigits_nil_of_nondigit (l : List Char)
    (hl : ∀ b ∈ l, b.isDigit = false) : leadingDigits 10 l = [] := by
  cases l with
  | nil => rfl
  | cons b t =>
    have hb := hl b (List.mem_cons_self b t)
    simp [leadingDigits, digitVal, hb]

theorem jsParseIntFrom_digit (c : Char) (rest2 : List Char) (dv : Nat)
    (hdv : digitVal 10 c = some dv)
    (hnd : ∀ b ∈ rest2, b.isDigit = false)
    (hnh : ¬(c = '0' ∧ (rest2.head? = some 'x' ∨ rest2.head? = some 'X'))) :
    jsParseIntFrom (c :: rest2) 1 = some (dv : Int) := by
  unfold jsParseIntFrom
  rw [if_neg ?hc]
  case hc =>
    rintro ⟨h0, hx⟩
    simp only [List.head?_cons, Option.some.injEq] at h0
    exact hnh ⟨h0, by simpa using hx⟩
  have hld : leadingDigits 10 (c :: rest2) = [dv] := by
    simp [leadingDigits, hdv, leadingDigits_nil_of_nondigit rest2 hnd]
  simp [hld, digitsToNat]

/-- C10 counterexample: the reply text 0xf satisfies the hypothesis of the
claim as stated (its trimmed text begins with the digit 0 and every
following character is non-numeric), yet the analysis does not succeed
with the leading digit as the severity: parseInt treats 0x as a
hexadecimal prefix and parses the text to 15, which is out of range, so
the parse fails with the invalid-response error. -/
theorem C10_hex_counterexample :
    jsTrim "0xf" = "0xf"
    ∧ ("0xf".toList.head? = some '0'
        ∧ ∀ ch ∈ "0xf".toList.tail, ch.isDigit = false)
    ∧ jsParseInt "0xf" = some 15
    ∧ parseLevelText "0xf" = .error .invalidResponse := by
  decide

/-- C10 amended: a reply whose trimmed text begins with a digit 0..4
followed only by non-digit characters parses to that leading digit and the
analysis succeeds with it, provided the text does not begin with the
hexadecimal prefix 0x or 0X (which parseInt would parse as hexadecimal
instead). -/
theorem C10_leading_digit_parsed (c : Char) (rest : List Char)
    (hc : c = '0' ∨ c = '1' ∨ c = '2' ∨ c = '3' ∨ c = '4')
    (hrest : ∀ ch ∈ rest, ch.isDigit = false)
    (hnohex : ¬(c = '0' ∧ (rest.head? = some 'x' ∨ rest.head? = some 'X'))) :
    parseLevelText (String.mk (c :: rest)) = .ok ((c.toNat : Int) - 48) := by
  have hcw : Char.isWhitespace c = false := by
    rcases hc with h | h | h | h | h <;> subst h <;> decide
  have hdv : digitVal 10 c = some (c.toNat - 48) := by
    rcases hc with h | h | h | h | h <;> subst h <;> decide
  have hnd2 : ∀ b ∈ trimTrailing Char.isWhitespace rest, b.isDigit = false :=
    fun b hb => hrest b (trimTrailing_mem Char.isWhitespace rest b hb)
  have hnh2 : ¬(c = '0' ∧ ((trimTrailing Char.isWhitespace rest).head? = some 'x'
      ∨ (trimTrailing Char.isWhitespace rest).head? = some 'X')) := by
    rintro ⟨h0, hx⟩
    refine hnohex ⟨h0, ?_⟩
    rcases hx with hx | hx
    · exact Or.inl (trimTrailing_headq Char.isWhitespace rest 'x' hx)
    · exact Or.inr (trimTrailing_headq Char.isWhitespace rest 'X' hx)
  have htrim : jsTrim (String.mk (c :: rest))
      = String.mk (c :: trimTrailing Char.isWhitespace rest) := by
    unfold jsTrim
    rw [toList_mk, List.dropWhile_cons, if_neg (by simp [hcw]),
      trimTrailing_cons Char.isWhitespace c rest hcw]
  have hsign1 : ¬((c :: trimTrailing Char.isWhitespace rest).head? = some '-') := by
    simp only [List.head?_cons, Option.some.injEq]
    rcases hc with h | h | h | h | h <;> subst h <;> decide
  have hsign2 : ¬((c :: trimTrailing Char.isWhitespace rest).head? = some '+') := by
    simp only [List.head?_cons, Option.some.injEq]
    rcases hc with h | h | h | h | h <;> subst h <;> decide
  have hwcons : ¬(Char.isWhitespace c = true) := by simp [hcw]
  have hjp : jsParseInt (jsTrim (String.mk (c :: rest)))
      = some (((c.toNat - 48 : Nat)) : Int) := by
    rw [htrim]
    unfold jsParseInt
    rw [toList_mk, List.dropWhile_cons, if_neg hwcons, if_neg hsign1, if_neg hsign2]
    exact jsParseIntFrom_digit c (trimTrailing Char.isWhitespace rest)
      (c.toNat - 48) hdv hnd2 hnh2
  unfold parseLevelText
  rw [hjp]
  rcases hc with h | h | h | h | h <;> subst h <;> decide

/-- Witness for the amended C10 at the reply text 2abc. -/
theorem C10_leading_digit_parsed_witness :
    parseLevelText (String.mk ('2' :: ['a', 'b', 'c'])) = .ok (('2'.toNat : Int) - 48)
    ∧ parseLevelText "2abc" = .ok 2 := by
  have h := C10_leading_digit_parsed '2' ['a', 'b', 'c'] (by decide) (by decide) (by decide)
  refine ⟨h, ?_⟩
  have h2 : parseLevelText "2abc" = .ok (('2'.toNat : Int) - 48) := by
    rw [show ("2abc" : String) = String.mk ('2' :: ['a', 'b', 'c']) from rfl]
    exact h
  rw [h2]
  decide

end DRApp
